import Mathlib

/-!
Verification of the JobParserEzh job-monitor pipeline (src/main.py).

Strings are modelled as lists of unicode scalar characters (Python strings
are sequences of code points, and Python `len` counts code points, exactly
like `List.length` on the character list).  Timestamps (`datetime` values)
are modelled as natural numbers counting seconds; `datetime.isoformat` /
`datetime.fromisoformat` form an order-preserving bijection between
datetimes and their stored TEXT representation, so the model stores the
timestamp value itself and compares numerically, which matches SQLite's
lexicographic comparison of the ISO strings.
-/

set_option maxRecDepth 40000

/-- Python strings, as lists of unicode scalars. -/
abbrev Str := List Char

/-- Coerce a Lean string literal to the model's string type. -/
def S (s : String) : Str := s.data

/-- Decimal rendering of a natural number, as Python's str(n) / f-string
interpolation of a non-negative int. -/
def natStr (n : Nat) : Str := (Nat.repr n).data

/-- Python str.lower(), character by character. -/
def pyLower (s : Str) : Str := s.map Char.toLower

/-- Whether `a` occurs at the start of `b`. -/
def pyStartsWith : Str → Str → Bool
  | [], _ => true
  | _ :: _, [] => false
  | a :: as, b :: bs => a = b && pyStartsWith as bs

/-- Python substring containment `a in b`.  Note `"" in b` is true for every
b, including the empty string. -/
def pyIn (a : Str) : Str → Bool
  | [] => decide (a = [])
  | c :: rest => pyStartsWith a (c :: rest) || pyIn a rest

/-- The characters removed by Python str.strip() with no argument
(ASCII whitespace; the digests never contain the exotic unicode spaces). -/
def pySpace (c : Char) : Bool :=
  c = ' ' ∨ c = '\t' ∨ c = '\n' ∨ c = '\r' ∨ c = '\x0b' ∨ c = '\x0c'

/-- Python str.strip(): drop leading and trailing whitespace. -/
def pyStrip (s : Str) : Str :=
  ((s.dropWhile pySpace).reverse.dropWhile pySpace).reverse

/-- Python s.split(c) for a single-character separator: always returns at
least one piece; `"".split(c) = [""]`. -/
def pySplit (c : Char) : Str → List Str
  | [] => [[]]
  | x :: xs =>
    if x = c then [] :: pySplit c xs
    else
      match pySplit c xs with
      | h :: t => (x :: h) :: t
      | [] => [[x]]

/-- The dataclass Job of src/main.py (lines 39-68).  `published` is optional;
`created_at` is set at construction (datetime.now()), here an explicit field. -/
structure Job where
  title : Str
  description : Str
  link : Str
  source : Str
  location : Str := []
  company : Str := []
  tags : Str := []
  published : Option Nat := none
  created_at : Nat
deriving DecidableEq, Repr

/-- Stand-in for hashlib.md5(...).hexdigest(): a fixed deterministic function
of the input string.  Every claim below uses only that md5 is deterministic
(no claim assumes collision-freedom or any other property of the digest),
so the identity function is a faithful stand-in. -/
def md5hex (s : Str) : Str := s

/-- Job.get_hash (src/main.py lines 65-68): the dedup fingerprint, the md5
digest of "title|link|source". -/
def Job.get_hash (j : Job) : Str :=
  md5hex (j.title ++ S "|" ++ j.link ++ S "|" ++ j.source)

/-- One row of the jobs table (src/main.py lines 91-106): the Job columns
plus the unique hash and the sent_to_telegram flag. -/
structure Row where
  title : Str
  description : Str
  link : Str
  source : Str
  location : Str
  company : Str
  tags : Str
  published : Option Nat
  created_at : Nat
  hash : Str
  sent : Bool
deriving DecidableEq, Repr

/-- The persistent store: the list of rows of the jobs table, in insertion
order. -/
abbrev DB := List Row

/-- The row INSERTed by add_job for a job (sent_to_telegram defaults FALSE). -/
def jobToRow (j : Job) : Row :=
  { title := j.title, description := j.description, link := j.link,
    source := j.source, location := j.location, company := j.company,
    tags := j.tags, published := j.published, created_at := j.created_at,
    hash := j.get_hash, sent := false }

/-- Reconstruction of a Job from a row, as get_new_jobs does column by
column (src/main.py lines 148-158). -/
def rowToJob (r : Row) : Job :=
  { title := r.title, description := r.description, link := r.link,
    source := r.source, location := r.location, company := r.company,
    tags := r.tags, published := r.published, created_at := r.created_at }

/-- DatabaseManager.add_job (src/main.py lines 111-132): INSERT the row;
the UNIQUE constraint on hash raises IntegrityError for a duplicate, which
is caught and turned into a False return with no mutation. -/
def add_job (db : DB) (j : Job) : Bool × DB :=
  if db.any (fun r => decide (r.hash = j.get_hash)) then (false, db)
  else (true, db ++ [jobToRow j])

/-- Number of rows carrying a given hash. -/
def countHash (db : DB) (h : Str) : Nat :=
  db.countP (fun r => decide (r.hash = h))

/-- The WHERE clause of get_new_jobs (src/main.py line 142):
created_at > now - hours AND sent_to_telegram = FALSE. -/
def rowRecent (now hours : Nat) (r : Row) : Bool :=
  decide (now - hours * 3600 < r.created_at) && !r.sent

/-- ORDER BY created_at DESC: most recent first. -/
def laterFirst (a b : Row) : Prop := b.created_at ≤ a.created_at

instance : DecidableRel laterFirst := fun a b =>
  Nat.decLe b.created_at a.created_at

instance : IsTotal Row laterFirst :=
  ⟨fun a b => Nat.le_total b.created_at a.created_at⟩

instance : IsTrans Row laterFirst :=
  ⟨fun _ _ _ h h' => Nat.le_trans h' h⟩

/-- DatabaseManager.get_new_jobs (src/main.py lines 134-161): select the
undelivered rows ingested within the last `hours` hours, most recent first,
and rebuild Job values from the columns. -/
def get_new_jobs (db : DB) (now hours : Nat) : List Job :=
  ((db.filter (rowRecent now hours)).insertionSort laterFirst).map rowToJob

/-- DatabaseManager.mark_as_sent (src/main.py lines 163-168): set the
sent_to_telegram flag on every row whose hash is listed. -/
def mark_as_sent (db : DB) (hashes : List Str) : DB :=
  db.map (fun r => if hashes.contains r.hash then { r with sent := true } else r)

/-- JobLocationFilter (src/main.py lines 70-79): allowed locations are
lower-cased at construction. -/
def mkLocationFilter (allowed : List Str) : List Str := allowed.map pyLower

/-- JobLocationFilter.is_location_allowed (src/main.py lines 77-79):
true iff some allowed entry is a substring of the lower-cased location. -/
def is_location_allowed (allowed_locations : List Str) (j : Job) : Bool :=
  allowed_locations.any (fun a => pyIn a (pyLower j.location))

/-- JobFilter (src/main.py lines 239-248): keywords lower-cased at
construction. -/
def mkKeywordFilter (keywords : List Str) : List Str := keywords.map pyLower

/-- JobFilter.matches (src/main.py lines 245-248): true iff some keyword is
a substring of the lower-cased "title description tags" text. -/
def keyword_matches (keywords : List Str) (j : Job) : Bool :=
  let text := pyLower (j.title ++ S " " ++ j.description ++ S " " ++ j.tags)
  keywords.any (fun kw => pyIn kw text)

/-- The digest configuration self.config with the defaults that
config.get(...) supplies in create_digest (src/main.py lines 306-346). -/
structure Config where
  show_stats : Bool := true
  show_company : Bool := true
  show_location : Bool := true
  include_description : Bool := false
  max_jobs_per_source : Nat := 10
deriving DecidableEq, Repr

/-- The run statistics dict self.stats (src/main.py lines 433-437):
counters plus the start time; start_time is carried as its already
rendered '%H:%M:%S' form, which is all create_digest uses. -/
structure Stats where
  total_viewed : Nat
  total_added : Nat
  start_time : Str
deriving DecidableEq, Repr

/-- Telegram's hard message ceiling (src/main.py line 257). -/
def max_message_length : Nat := 4096

/-- Grouping of jobs by source with first-seen order, as the Python dict
insertion order gives (src/main.py lines 317-321): one step. -/
def addToGroup (gs : List (Str × List Job)) (j : Job) : List (Str × List Job) :=
  match gs with
  | [] => [(j.source, [j])]
  | (s, js) :: rest =>
    if s = j.source then (s, js ++ [j]) :: rest
    else (s, js) :: addToGroup rest j

/-- jobs_by_source: fold the jobs into groups, preserving first-seen source
order and per-source job order. -/
def groupBySource (jobs : List Job) : List (Str × List Job) :=
  jobs.foldl addToGroup []

/-- Ghost trace of what create_digest appended: one event per appended
numbered job line, per budget-overflow stop, per "... и еще N вакансий"
suffix (inner = the overflow branch at line 354, outer = the per-source
maximum branch at line 362), and for the final truncation marker.
The events do not influence the produced digest string. -/
inductive Event where
  | lineAdded (source : Str) (i : Nat)
  | budgetHit (source : Str) (i : Nat)
  | innerSuffix (source : Str) (n : Nat)
  | outerSuffix (source : Str) (n : Nat)
  | truncMarker
deriving DecidableEq, Repr

/-- The source a digest event is tagged with. -/
def Event.src : Event → Option Str
  | .lineAdded s _ => some s
  | .budgetHit s _ => some s
  | .innerSuffix s _ => some s
  | .outerSuffix s _ => some s
  | .truncMarker => none

/-- The numbered line rendered for one job (src/main.py lines 333-348):
index, linked title, optional location and company, optional description
preview (100 chars plus ellipsis). -/
def renderJobLine (cfg : Config) (i : Nat) (j : Job) : Str :=
  let location := if cfg.show_location && !j.location.isEmpty
    then S " 🌍 " ++ j.location else []
  let company := if cfg.show_company && !j.company.isEmpty
    then S " 🏢 " ++ j.company else []
  let line := natStr i ++ S ". [" ++ j.title ++ S "](" ++ j.link ++ S ")" ++
    location ++ company ++ S "\n"
  if cfg.include_description && !j.description.isEmpty then
    let preview := if 100 < j.description.length
      then j.description.take 100 ++ S "..." else j.description
    line ++ S "   _" ++ preview ++ S "_\n"
  else line

/-- The "... и еще N вакансий" suffix line (src/main.py lines 354 and 362). -/
def moreSuffix (n : Nat) : Str :=
  S "   ... и еще " ++ natStr n ++ S " вакансий\n"

/-- The for-loop over a source's displayed jobs (src/main.py lines 333-357):
`acc` is "".join(digest_parts), `sjLen` the source's total job count,
`dispLen` the displayed slice's length, `i` the 1-based enumerate index and
`section` the source_section accumulated so far.  On budget overflow the
suffix is appended only when the source has more jobs than displayed, and
the loop breaks. -/
def innerLoop (cfg : Config) (acc : Str) (sjLen dispLen : Nat) (src : Str) :
    List Job → Nat → Str → Str × List Event
  | [], _, sect => (sect, [])
  | job :: rest, i, sect =>
    let line := renderJobLine cfg i job
    if max_message_length - 200 < (acc ++ sect ++ line).length then
      if dispLen < sjLen then
        (sect ++ moreSuffix (sjLen - i + 1),
         [.budgetHit src i, .innerSuffix src (sjLen - i + 1)])
      else
        (sect, [.budgetHit src i])
    else
      let r := innerLoop cfg acc sjLen dispLen src rest (i + 1) (sect ++ line)
      (r.1, .lineAdded src i :: r.2)

/-- The for-loop over the grouped sources (src/main.py lines 327-370):
section header, displayed slice, inner loop, hidden-count suffix when the
source exceeds max_jobs_per_source, then the overall-size check that may
append the truncation marker and stop. -/
def outerLoop (cfg : Config) : List (Str × List Job) → Str → Str × List Event
  | [], acc => (acc, [])
  | (src, js) :: rest, acc =>
    let header := S "📂 *" ++ src ++ S "* (" ++ natStr js.length ++
      S " вакансий)\n"
    let displayed := js.take cfg.max_jobs_per_source
    let r := innerLoop cfg acc js.length displayed.length src displayed 1 header
    let r :=
      if cfg.max_jobs_per_source < js.length then
        (r.1 ++ moreSuffix (js.length - cfg.max_jobs_per_source),
         r.2 ++ [.outerSuffix src (js.length - cfg.max_jobs_per_source)])
      else r
    let acc' := acc ++ r.1 ++ S "\n"
    if max_message_length - 200 < acc'.length then
      (acc' ++ S "📝 *Дайджест сокращен из-за ограничений Telegram*",
       r.2 ++ [.truncMarker])
    else
      let rest' := outerLoop cfg rest acc'
      (rest'.1, r.2 ++ rest'.2)

/-- The statistics block of the digest header (src/main.py lines 306-314). -/
def statsBlock (stats : Stats) (nJobs : Nat) : Str :=
  S "🔍 Просмотрено: " ++ natStr stats.total_viewed ++ S " вакансий\n" ++
  S "➕ Найдено новых: " ++ natStr stats.total_added ++ S "\n" ++
  S "📤 В дайджесте: " ++ natStr nJobs ++ S "\n" ++
  S "⏰ Время: " ++ stats.start_time ++ S "\n\n" ++
  S "━━━━━━━━━━━━━━━━━━━━━━━━━━━━━━━━\n\n"

/-- The canned empty-digest message (src/main.py line 298). -/
def noJobsMsg : Str := S "📋 Новых вакансий за последние 24 часа не найдено."

/-- TelegramBot.create_digest (src/main.py lines 295-372) with its ghost
event trace.  `nowDate` is the '%d.%m.%Y' rendering of datetime.now() read
inside create_digest when building the header. -/
def create_digest_traced (jobs : List Job) (stats : Stats) (cfg : Config)
    (nowDate : Str) : Str × List Event :=
  match jobs with
  | [] => (noJobsMsg, [])
  | _ =>
    let header := S "📊 *Дайджест вакансий за " ++ nowDate ++ S "*\n\n"
    let header := if cfg.show_stats then header ++ statsBlock stats jobs.length
      else header
    outerLoop cfg (groupBySource jobs) header

/-- The digest string create_digest returns. -/
def create_digest (jobs : List Job) (stats : Stats) (cfg : Config)
    (nowDate : Str) : Str :=
  (create_digest_traced jobs stats cfg nowDate).1

/-- TelegramBot.split_digest's loop over lines (src/main.py lines 399-418):
flush the current part when a line would push it past the 3896 budget;
a single overlong line is hard-truncated with an ellipsis. -/
def splitGo : List Str → List Str → Str → List Str
  | [], parts, current =>
    if current.isEmpty then parts else parts ++ [pyStrip current]
  | line :: rest, parts, current =>
    let test := current ++ line ++ ['\n']
    if max_message_length - 200 < test.length then
      if current.isEmpty then
        splitGo rest (parts ++ [line.take (max_message_length - 200) ++ S "..."]) []
      else
        splitGo rest (parts ++ [pyStrip current]) (line ++ ['\n'])
    else
      splitGo rest parts test

/-- TelegramBot.split_digest (src/main.py lines 394-418). -/
def split_digest (digest : Str) : List Str :=
  splitGo (pySplit '\n' digest) [] []

/-- The "(i/N)" part indicator header (src/main.py line 384). -/
def partHeaderStr (i n : Nat) : Str :=
  S "📋 *Дайджест (" ++ natStr i ++ S "/" ++ natStr n ++ S ")*\n\n"

/-- The list of texts TelegramBot.send_digest passes to send_message
(src/main.py lines 374-392): the digest itself when it fits the 4096
ceiling, otherwise the split parts, each prefixed with the part indicator
when there is more than one part. -/
def send_digest_msgs (digest : Str) : List Str :=
  if digest.length ≤ max_message_length then [digest]
  else
    let parts := split_digest digest
    parts.enum.map (fun ip =>
      (if 1 < parts.length then partHeaderStr (ip.1 + 1) parts.length else []) ++
        ip.2)

/-- The boolean send_digest returns, with the delivery endpoint modelled as
an oracle giving the success of the i-th send_message call: the single
call's result in the short case, otherwise success_count == len(parts). -/
def send_digest_ok (digest : Str) (oracle : Nat → Bool) : Bool :=
  if digest.length ≤ max_message_length then oracle 0
  else
    let parts := split_digest digest
    ((List.range parts.length).countP (fun i => oracle i)) == parts.length

/-- JobMonitor.send_daily_report (src/main.py lines 511-533): query the
last 24 hours, compose and send the digest, and mark the postings sent
only when send_digest reported success.  Returns the updated store and the
list of hashes passed to mark_as_sent (empty when nothing was marked; the
no-new-jobs branch sends a canned message and marks nothing). -/
def send_daily_report (db : DB) (now : Nat) (stats : Stats) (cfg : Config)
    (nowDate : Str) (oracle : Nat → Bool) : DB × List Str :=
  let newJobs := get_new_jobs db now 24
  if newJobs.isEmpty then (db, [])
  else
    let digest := create_digest newJobs stats cfg nowDate
    if send_digest_ok digest oracle then
      (mark_as_sent db (newJobs.map Job.get_hash), newJobs.map Job.get_hash)
    else (db, [])

def p1c : Job :=
  { title := S "dev", description := S "a", link := S "u", source := S "hn",
    created_at := 0 }

def q1c : Job :=
  { title := S "dev", description := S "b", link := S "u", source := S "hn",
    created_at := 1 }

/-- A job with an empty location field. -/
def jEmptyLoc : Job :=
  { title := S "t", description := [], link := S "l", source := S "s",
    location := [], created_at := 0 }

/-- Claim C6 as stated: an empty location never passes the location filter,
for every contents of the allow-list. -/
def C6Prop : Prop := ∀ (allowed : List Str) (j : Job), j.location = [] →
  is_location_allowed (mkLocationFilter allowed) j = false

def j4c : Job :=
  { title := S "t", description := [], link := S "l", source := S "s",
    created_at := 0 }

def stats0 : Stats :=
  { total_viewed := 0, total_added := 0, start_time := S "09:00:00" }

/-- Claim C4 as stated: the digest depends only on the job list, the
configuration and the run statistics. -/
def C4Prop : Prop :=
  ∀ (jobs : List Job) (stats : Stats) (cfg : Config) (d1 d2 : Str),
    create_digest jobs stats cfg d1 = create_digest jobs stats cfg d2

def mkJob9 (k : Nat) : Job :=
  { title := S "t" ++ natStr k, description := [], link := S "l" ++ natStr k,
    source := S "S", created_at := 0 }

def jobs9 : List Job := (List.range 15).map (fun k => mkJob9 (k + 1))

def stats9 : Stats :=
  { total_viewed := 15, total_added := 15, start_time := S "09:00:00" }

def r2c : Row :=
  { title := S "t", description := S "d", link := S "l", source := S "s",
    location := [], company := [], tags := [], published := none,
    created_at := 100, hash := S "h", sent := false }

/-- Claim C3, the part the code refutes (a weakening of the full claim, so
its failure refutes the claim as stated): a digest longer than 4096 always
produces at least 2 send_message calls. -/
def C3Prop : Prop := ∀ d : Str, max_message_length < d.length →
  2 ≤ (send_digest_msgs d).length

/-- The events one source's section contributes (inner-loop events plus the
per-source maximum suffix event), exactly as outerLoop produces them. -/
def blockOf (cfg : Config) (acc : Str) (src : Str) (js : List Job) :
    List Event :=
  (innerLoop cfg acc js.length (js.take cfg.max_jobs_per_source).length src
      (js.take cfg.max_jobs_per_source) 1
      (S "📂 *" ++ src ++ S "* (" ++ natStr js.length ++ S " вакансий)\n")).2 ++
  (if cfg.max_jobs_per_source < js.length
    then [Event.outerSuffix src (js.length - cfg.max_jobs_per_source)]
    else [])


/-- One source section's inner-loop run, as outerLoop performs it. -/
def sectionResult (cfg : Config) (acc : Str) (src : Str) (js : List Job) :
    Str × List Event :=
  innerLoop cfg acc js.length (js.take cfg.max_jobs_per_source).length src
    (js.take cfg.max_jobs_per_source) 1
    (S "📂 *" ++ src ++ S "* (" ++ natStr js.length ++ S " вакансий)\n")

def jA1 : Job :=
  { title := List.replicate 50 'x', description := [], link := S "l",
    source := S "A", created_at := 0 }

def jA2 : Job :=
  { title := List.replicate 3900 'y', description := [], link := S "l",
    source := S "A", created_at := 0 }

def jB5 : Job :=
  { title := S "t3", description := [], link := S "l3", source := S "B",
    created_at := 0 }

def jobs5 : List Job := [jA1, jA2, jB5]

def cfg5 : Config := { show_stats := false }

def stats5 : Stats :=
  { total_viewed := 0, total_added := 0, start_time := [] }

def hdr5 : Str := S "📊 *Дайджест вакансий за " ++ S "d" ++ S "*\n\n"

def hdrA5 : Str := S "📂 *" ++ S "A" ++ S "* (" ++ natStr 2 ++
  S " вакансий)\n"

def hdrB5 : Str := S "📂 *" ++ S "B" ++ S "* (" ++ natStr 1 ++
  S " вакансий)\n"

/-- Claim C5 as stated: when appending a rendered line would exceed the
4096-200 budget, a "...and N more" suffix is appended for that source and
no later source contributes any job line (no source with a strictly larger
first-seen index has a lineAdded event). -/
def C5Prop : Prop := ∀ (jobs : List Job) (stats : Stats) (cfg : Config)
    (nowDate : Str) (s : Str) (i : Nat),
  Event.budgetHit s i ∈ (create_digest_traced jobs stats cfg nowDate).2 →
    (∃ n, Event.innerSuffix s n ∈
      (create_digest_traced jobs stats cfg nowDate).2) ∧
    (∀ s' j, Event.lineAdded s' j ∈
        (create_digest_traced jobs stats cfg nowDate).2 →
      ((groupBySource jobs).map Prod.fst).indexOf s' ≤
        ((groupBySource jobs).map Prod.fst).indexOf s)

def j10c : Job :=
  { title := S "t", description := S "d", link := S "l", source := S "s",
    location := S "remote", company := S "c", tags := S "x",
    published := some 7, created_at := 100 }

/-! ## Store and filter claims -/

theorem mem_get_new_jobs (db : DB) (now hours : Nat) (j : Job) :
    j ∈ get_new_jobs db now hours ↔
      ∃ r ∈ db, rowRecent now hours r = true ∧ rowToJob r = j := by
  unfold get_new_jobs
  rw [List.mem_map]
  constructor
  · rintro ⟨r, hr, rfl⟩
    have hmem := (List.perm_insertionSort laterFirst
      (db.filter (rowRecent now hours))).mem_iff.mp hr
    rw [List.mem_filter] at hmem
    exact ⟨r, hmem.1, hmem.2, rfl⟩
  · rintro ⟨r, hr, hrec, rfl⟩
    exact ⟨r, (List.perm_insertionSort laterFirst _).mem_iff.mpr
      (List.mem_filter.mpr ⟨hr, hrec⟩), rfl⟩

/-- Claim C1: two postings with identical title, link and source have the
same fingerprint; on a store not yet holding that fingerprint, add_job
returns true for the first and false for the second, and the store then
holds exactly one record with that fingerprint. -/
theorem c1_fingerprint_dedup (p q : Job) (db : DB)
    (ht : p.title = q.title) (hl : p.link = q.link) (hs : p.source = q.source)
    (hfresh : countHash db p.get_hash = 0) :
    p.get_hash = q.get_hash ∧
    (add_job db p).1 = true ∧
    (add_job (add_job db p).2 q).1 = false ∧
    countHash (add_job (add_job db p).2 q).2 p.get_hash = 1 := by
  have hhash : p.get_hash = q.get_hash := by
    simp [Job.get_hash, md5hex, ht, hl, hs]
  have hany : db.any (fun r => decide (r.hash = p.get_hash)) = false := by
    rw [List.any_eq_false]
    intro r hr
    have := List.countP_eq_zero.mp hfresh r hr
    simpa using this
  have hdb1 : add_job db p = (true, db ++ [jobToRow p]) := by
    simp [add_job, hany]
  refine ⟨hhash, by rw [hdb1], ?_, ?_⟩
  · rw [hdb1]
    have : (db ++ [jobToRow p]).any (fun r => decide (r.hash = q.get_hash)) = true := by
      rw [List.any_eq_true]
      exact ⟨jobToRow p, List.mem_append_right _ (List.mem_singleton_self _),
        by simp [jobToRow, hhash]⟩
    simp [add_job, this]
  · rw [hdb1]
    have : (db ++ [jobToRow p]).any (fun r => decide (r.hash = q.get_hash)) = true := by
      rw [List.any_eq_true]
      exact ⟨jobToRow p, List.mem_append_right _ (List.mem_singleton_self _),
        by simp [jobToRow, hhash]⟩
    simp only [add_job, this, if_pos]
    show countHash (db ++ [jobToRow p]) p.get_hash = 1
    unfold countHash at hfresh ⊢
    rw [List.countP_append, hfresh]
    simp [jobToRow]

theorem c1_fingerprint_dedup_witness :
    p1c.get_hash = q1c.get_hash ∧
    (add_job [] p1c).1 = true ∧
    (add_job (add_job [] p1c).2 q1c).1 = false ∧
    countHash (add_job (add_job [] p1c).2 q1c).2 p1c.get_hash = 1 :=
  c1_fingerprint_dedup p1c q1c [] rfl rfl rfl (by decide)

/-- Claim C6 counterexample: with the empty string on the allow-list, the
Python substring test "" in "" is true, so a posting with empty location is
accepted, refuting the claim as stated. -/
theorem c6_counterexample : ¬ C6Prop := fun h =>
  absurd (h [[]] jEmptyLoc rfl) (by decide)

/-- Claim C6 amended: for every allow-list all of whose entries are
non-empty, a posting with empty or missing location is always rejected. -/
theorem c6_location_empty_rejected (allowed : List Str) (j : Job)
    (hloc : j.location = []) (hne : ∀ a ∈ allowed, a ≠ []) :
    is_location_allowed (mkLocationFilter allowed) j = false := by
  unfold is_location_allowed mkLocationFilter
  rw [List.any_eq_false]
  intro a ha
  obtain ⟨a₀, ha₀, rfl⟩ := List.mem_map.mp ha
  rw [hloc]
  simp only [pyLower, List.map_nil, pyIn, decide_eq_true_eq]
  intro hmap
  exact hne a₀ ha₀ (List.map_eq_nil_iff.mp hmap)

theorem c6_location_empty_rejected_witness :
    is_location_allowed (mkLocationFilter [S "remote"]) jEmptyLoc = false :=
  c6_location_empty_rejected [S "remote"] jEmptyLoc rfl (by decide)

/-- Claim C7: the keyword filter built from the empty keyword list rejects
every posting (the empty set excludes all, it does not include all). -/
theorem c7_empty_keywords_reject (j : Job) :
    keyword_matches (mkKeywordFilter []) j = false := rfl

/-- Claim C8: get_new_jobs returns exactly the stored rows whose ingestion
time is within the window and whose delivered flag is unset (as a
permutation of the filtered rows and a membership characterisation), in
most-recent-first order of created_at. -/
theorem c8_get_new_jobs_spec (db : DB) (now hours : Nat) :
    (get_new_jobs db now hours).Perm
      ((db.filter (rowRecent now hours)).map rowToJob) ∧
    (get_new_jobs db now hours).Pairwise
      (fun a b => b.created_at ≤ a.created_at) ∧
    ∀ j, j ∈ get_new_jobs db now hours ↔
      ∃ r ∈ db, rowRecent now hours r = true ∧ rowToJob r = j := by
  refine ⟨?_, ?_, mem_get_new_jobs db now hours⟩
  · exact (List.perm_insertionSort laterFirst _).map rowToJob
  · unfold get_new_jobs
    rw [List.pairwise_map]
    exact List.sorted_insertionSort laterFirst (db.filter (rowRecent now hours))

/-- Claim C10: a successfully inserted posting with non-empty title, link
and source is returned intact (equal in every one of the nine fields, i.e.
equal as a Job value) by a later get_new_jobs whose window covers its
ingestion time, before it is marked sent. -/
theorem c10_roundtrip (db : DB) (j : Job) (now hours : Nat)
    (_hvalid : j.title ≠ [] ∧ j.link ≠ [] ∧ j.source ≠ [])
    (hadded : (add_job db j).1 = true)
    (hwin : now - hours * 3600 < j.created_at) :
    j ∈ get_new_jobs (add_job db j).2 now hours := by
  rw [mem_get_new_jobs]
  refine ⟨jobToRow j, ?_, ?_, rfl⟩
  · unfold add_job at hadded ⊢
    by_cases h : db.any (fun r => decide (r.hash = j.get_hash)) = true
    · rw [if_pos h] at hadded
      exact Bool.noConfusion hadded
    · rw [if_neg h]
      exact List.mem_append_right _ (List.mem_singleton_self _)
  · simp [rowRecent, jobToRow, hwin]

theorem c10_roundtrip_witness :
    j10c ∈ get_new_jobs (add_job [] j10c).2 100 24 :=
  c10_roundtrip [] j10c 100 24 (by decide) (by decide) (by decide)

/-! ## Digest determinism (C4) and the 15-postings scenario (C9) -/

/-- Claim C4 counterexample: create_digest reads the wall clock for the
header date, so the same job list, configuration and statistics rendered
on two different dates give different bytes. -/
theorem c4_counterexample : ¬ C4Prop := fun h =>
  absurd (h [j4c] stats0 {} (S "01.01.2025") (S "02.01.2025")) (by decide)

/-- Claim C4 amended: the digest is a deterministic function of the job
list, the configuration, the run statistics and the current date read for
the header; two invocations agreeing on all four produce byte-identical
output. -/
theorem c4_deterministic (jobs jobs' : List Job) (stats stats' : Stats)
    (cfg cfg' : Config) (d d' : Str)
    (hj : jobs = jobs') (hs : stats = stats') (hc : cfg = cfg')
    (hd : d = d') :
    create_digest jobs stats cfg d = create_digest jobs' stats' cfg' d' := by
  rw [hj, hs, hc, hd]

theorem c4_deterministic_witness :
    create_digest [j4c] stats0 {} (S "01.01.2025") =
      create_digest [j4c] stats0 {} (S "01.01.2025") :=
  c4_deterministic [j4c] [j4c] stats0 stats0 {} {} (S "01.01.2025")
    (S "01.01.2025") rfl rfl rfl rfl

/-- Claim C9: on 15 undelivered postings from a single source with the
default max_jobs_per_source = 10 and content fitting the budget, the
composer appends exactly the numbered lines 1..10 for that source followed
by exactly one "... и еще 5 вакансий" suffix, and nothing else (no budget
stop, no truncation marker), as the append trace records. -/
theorem c9_fifteen_postings :
    (create_digest_traced jobs9 stats9 {} (S "01.01.2025")).2 =
      ((List.range 10).map (fun k => Event.lineAdded (S "S") (k + 1))) ++
        [Event.outerSuffix (S "S") 5] := by decide

/-! ## Delivery success semantics (C2) -/

theorem countP_range_eq (p : Nat → Bool) (n : Nat) :
    (((List.range n).countP p) == n) = true ↔ ∀ i < n, p i = true := by
  rw [beq_iff_eq]
  constructor
  · intro h i hi
    exact List.countP_eq_length.mp (by rw [h, List.length_range]) i
      (List.mem_range.mpr hi)
  · intro h
    have hall := List.countP_eq_length.mpr
      (fun a ha => h a (List.mem_range.mp ha))
    rw [hall, List.length_range]

/-- Claim C2: send_digest reports success iff every one of its
send_message calls succeeded, and send_daily_report passes hashes to
mark_as_sent only when send_digest reported success — so a failed part
leaves every posting of the digest unmarked. -/
theorem c2_all_or_nothing :
    (∀ (d : Str) (oracle : Nat → Bool),
      (send_digest_ok d oracle = true ↔
        ∀ i < (send_digest_msgs d).length, oracle i = true)) ∧
    (∀ (db : DB) (now : Nat) (stats : Stats) (cfg : Config) (nowDate : Str)
       (oracle : Nat → Bool),
      (send_daily_report db now stats cfg nowDate oracle).2 ≠ [] →
        send_digest_ok
          (create_digest (get_new_jobs db now 24) stats cfg nowDate)
          oracle = true) := by
  constructor
  · intro d oracle
    unfold send_digest_ok send_digest_msgs
    by_cases hlen : d.length ≤ max_message_length
    · rw [if_pos hlen, if_pos hlen]
      simp only [List.length_singleton]
      constructor
      · intro h i hi
        rw [Nat.lt_one_iff.mp hi]
        exact h
      · exact fun h => h 0 Nat.one_pos
    · rw [if_neg hlen, if_neg hlen]
      simp only [List.length_map, List.enum_length]
      exact countP_range_eq (fun i => oracle i) (split_digest d).length
  · intro db now stats cfg nowDate oracle hne
    simp only [send_daily_report] at hne
    by_cases hempty : (get_new_jobs db now 24).isEmpty
    · rw [if_pos hempty] at hne
      exact absurd rfl hne
    · rw [if_neg hempty] at hne
      by_cases hok : send_digest_ok
          (create_digest (get_new_jobs db now 24) stats cfg nowDate)
          oracle = true
      · exact hok
      · rw [if_neg hok] at hne
        exact absurd rfl hne

theorem c2_all_or_nothing_witness :
    send_digest_ok
      (create_digest (get_new_jobs [r2c] 100 24) stats0 {} (S "01.01.2025"))
      (fun _ => true) = true :=
  c2_all_or_nothing.2 [r2c] 100 stats0 {} (S "01.01.2025") (fun _ => true)
    (by decide)

/-! ## Message splitting (C3) -/

theorem pySplit_replicate (n : Nat) :
    pySplit '\n' (List.replicate n 'a') = [List.replicate n 'a'] := by
  induction n with
  | zero => rfl
  | succ n ih =>
    rw [List.replicate_succ]
    simp only [pySplit, if_neg (by decide : ¬('a' = '\n')), ih]

/-- A digest that is a single line longer than the 3896 budget is
hard-truncated into one part with an ellipsis. -/
theorem split_digest_single_line (d : Str)
    (hnl : pySplit '\n' d = [d])
    (hlong : max_message_length - 200 < d.length) :
    split_digest d =
      [d.take (max_message_length - 200) ++ S "..."] := by
  have hc : max_message_length - 200 < (([] : Str) ++ d ++ ['\n']).length := by
    simp only [List.nil_append, List.length_append, List.length_singleton]
    exact Nat.lt_succ_of_lt hlong
  unfold split_digest
  rw [hnl]
  simp only [splitGo]
  rw [if_pos hc, if_pos (by rfl), if_pos (by rfl)]
  simp

theorem splitGo_ne_nil : ∀ (lines : List Str) (parts : List Str)
    (current : Str), (lines ≠ [] ∨ parts ≠ [] ∨ current ≠ []) →
    splitGo lines parts current ≠ []
  | [], parts, current, h => by
    simp only [splitGo]
    by_cases hc : current.isEmpty
    · rw [if_pos hc]
      rcases h with h | h | h
      · exact absurd rfl h
      · exact h
      · exact absurd (List.isEmpty_iff.mp hc) h
    · rw [if_neg hc]
      simp
  | line :: rest, parts, current, _ => by
    simp only [splitGo]
    by_cases h1 : max_message_length - 200 < (current ++ line ++ ['\n']).length
    · rw [if_pos h1]
      by_cases h2 : current.isEmpty
      · rw [if_pos h2]
        exact splitGo_ne_nil rest _ _ (Or.inr (Or.inl (by simp)))
      · rw [if_neg h2]
        exact splitGo_ne_nil rest _ _ (Or.inr (Or.inl (by simp)))
    · rw [if_neg h1]
      exact splitGo_ne_nil rest _ _ (Or.inr (Or.inr (by simp)))

theorem pySplit_ne_nil (c : Char) (s : Str) : pySplit c s ≠ [] := by
  cases s with
  | nil => simp [pySplit]
  | cons x xs =>
    simp only [pySplit]
    by_cases h : x = c
    · rw [if_pos h]
      simp
    · rw [if_neg h]
      cases hx : pySplit c xs with
      | nil => simp
      | cons hd tl => simp

/-- Claim C3 counterexample: a digest that is a single 4097-character line
is longer than 4096, yet split_digest hard-truncates it into one single
part, so send_digest performs exactly one send_message call. -/
theorem c3_counterexample : ¬ C3Prop := fun h => by
  have hlen : (List.replicate 4097 'a' : Str).length = 4097 :=
    List.length_replicate 4097 'a'
  have hsplit := split_digest_single_line (List.replicate 4097 'a')
    (pySplit_replicate 4097) (by rw [hlen]; decide)
  have h2 := h (List.replicate 4097 'a') (by rw [hlen]; decide)
  unfold send_digest_msgs at h2
  rw [if_neg (by rw [hlen]; decide), hsplit] at h2
  simp only [List.length_map, List.enum_length, List.length_singleton] at h2
  exact absurd h2 (by decide)

/-- Claim C3 amended: a digest of length at most 4096 is sent as exactly
one message whose text is the digest itself; a longer digest is sent as
one message per split part — at least one, but possibly exactly one when
the digest is a single overlong line — and whenever at least two parts
exist, every message (the last included) is the "(i/N)" part indicator
followed by its part. -/
theorem c3_split_send (d : Str) :
    (d.length ≤ max_message_length → send_digest_msgs d = [d]) ∧
    (max_message_length < d.length →
      (send_digest_msgs d).length = (split_digest d).length ∧
      1 ≤ (send_digest_msgs d).length ∧
      (2 ≤ (split_digest d).length →
        send_digest_msgs d = (split_digest d).enum.map
          (fun ip => partHeaderStr (ip.1 + 1) (split_digest d).length ++
            ip.2))) := by
  constructor
  · intro hlen
    unfold send_digest_msgs
    rw [if_pos hlen]
  · intro hlen
    have hne : split_digest d ≠ [] :=
      splitGo_ne_nil _ _ _ (Or.inl (pySplit_ne_nil '\n' d))
    unfold send_digest_msgs
    rw [if_neg (not_le.mpr hlen)]
    refine ⟨by simp only [List.length_map, List.enum_length], ?_, ?_⟩
    · simp only [List.length_map, List.enum_length]
      exact Nat.one_le_iff_ne_zero.mpr
        (fun h0 => hne (List.length_eq_zero.mp h0))
    · intro h2
      refine List.map_congr_left (fun ip _ => ?_)
      rw [if_pos (show 1 < (split_digest d).length from h2)]

theorem c3_split_send_witness :
    send_digest_msgs (S "hi") = [S "hi"] ∧
    1 ≤ (send_digest_msgs (List.replicate 4097 'a')).length :=
  ⟨(c3_split_send (S "hi")).1 (by decide),
   ((c3_split_send (List.replicate 4097 'a')).2
      (by rw [List.length_replicate]; decide)).2.1⟩

/-! ## Budget truncation inside create_digest (C5) -/

theorem innerLoop_src (cfg : Config) (acc : Str) (sjLen dispLen : Nat)
    (src : Str) : ∀ (jobs : List Job) (i : Nat) (sect : Str) (e : Event),
    e ∈ (innerLoop cfg acc sjLen dispLen src jobs i sect).2 → e.src = some src
  | [], i, sect, e => by simp [innerLoop]
  | job :: rest, i, sect, e => by
    intro he
    simp only [innerLoop] at he
    by_cases h1 : max_message_length - 200 <
        (acc ++ sect ++ renderJobLine cfg i job).length
    · rw [if_pos h1] at he
      by_cases h2 : dispLen < sjLen
      · rw [if_pos h2] at he
        simp only [List.mem_cons, List.mem_singleton, List.not_mem_nil,
          or_false] at he
        rcases he with rfl | rfl <;> rfl
      · rw [if_neg h2] at he
        simp only [List.mem_singleton] at he
        rw [he]
        rfl
    · rw [if_neg h1] at he
      simp only [List.mem_cons] at he
      rcases he with rfl | he
      · rfl
      · exact innerLoop_src cfg acc sjLen dispLen src rest (i + 1)
          (sect ++ renderJobLine cfg i job) e he

theorem innerLoop_budget_ge (cfg : Config) (acc : Str) (sjLen dispLen : Nat)
    (src : Str) : ∀ (jobs : List Job) (i : Nat) (sect : Str) (s : Str)
    (k : Nat),
    Event.budgetHit s k ∈ (innerLoop cfg acc sjLen dispLen src jobs i sect).2 →
    i ≤ k
  | [], i, sect, s, k => by simp [innerLoop]
  | job :: rest, i, sect, s, k => by
    intro he
    simp only [innerLoop] at he
    by_cases h1 : max_message_length - 200 <
        (acc ++ sect ++ renderJobLine cfg i job).length
    · rw [if_pos h1] at he
      by_cases h2 : dispLen < sjLen
      · rw [if_pos h2] at he
        simp only [List.mem_cons, List.mem_singleton, List.not_mem_nil,
          or_false] at he
        rcases he with he | he
        · cases he
          exact Nat.le_refl i
        · cases he
      · rw [if_neg h2] at he
        simp only [List.mem_singleton] at he
        cases he
        exact Nat.le_refl i
    · rw [if_neg h1] at he
      simp only [List.mem_cons] at he
      rcases he with he | he
      · cases he
      · exact Nat.le_of_succ_le (innerLoop_budget_ge cfg acc sjLen dispLen src
          rest (i + 1) (sect ++ renderJobLine cfg i job) s k he)

theorem innerLoop_order (cfg : Config) (acc : Str) (sjLen dispLen : Nat)
    (src : Str) : ∀ (jobs : List Job) (i : Nat) (sect : Str) (s : Str)
    (k j : Nat),
    Event.budgetHit s k ∈ (innerLoop cfg acc sjLen dispLen src jobs i sect).2 →
    Event.lineAdded s j ∈ (innerLoop cfg acc sjLen dispLen src jobs i sect).2 →
    j < k
  | [], i, sect, s, k, j => by simp [innerLoop]
  | job :: rest, i, sect, s, k, j => by
    intro hb hl
    simp only [innerLoop] at hb hl
    by_cases h1 : max_message_length - 200 <
        (acc ++ sect ++ renderJobLine cfg i job).length
    · rw [if_pos h1] at hb hl
      by_cases h2 : dispLen < sjLen
      · rw [if_pos h2] at hl
        simp only [List.mem_cons, List.mem_singleton, List.not_mem_nil,
          or_false] at hl
        rcases hl with hl | hl <;> cases hl
      · rw [if_neg h2] at hl
        simp only [List.mem_singleton] at hl
        cases hl
    · rw [if_neg h1] at hb hl
      simp only [List.mem_cons] at hb hl
      rcases hb with hb | hb
      · cases hb
      · rcases hl with hl | hl
        · cases hl
          exact innerLoop_budget_ge cfg acc sjLen dispLen src rest (i + 1)
            (sect ++ renderJobLine cfg i job) src k hb
        · exact innerLoop_order cfg acc sjLen dispLen src rest (i + 1)
            (sect ++ renderJobLine cfg i job) s k j hb hl

theorem innerLoop_suffix (cfg : Config) (acc : Str) (sjLen dispLen : Nat)
    (src : Str) : ∀ (jobs : List Job) (i : Nat) (sect : Str) (s : Str)
    (n : Nat),
    Event.innerSuffix s n ∈
      (innerLoop cfg acc sjLen dispLen src jobs i sect).2 →
    dispLen < sjLen
  | [], i, sect, s, n => by simp [innerLoop]
  | job :: rest, i, sect, s, n => by
    intro he
    simp only [innerLoop] at he
    by_cases h1 : max_message_length - 200 <
        (acc ++ sect ++ renderJobLine cfg i job).length
    · rw [if_pos h1] at he
      by_cases h2 : dispLen < sjLen
      · exact h2
      · rw [if_neg h2] at he
        simp only [List.mem_singleton] at he
        cases he
    · rw [if_neg h1] at he
      simp only [List.mem_cons] at he
      rcases he with he | he
      · cases he
      · exact innerLoop_suffix cfg acc sjLen dispLen src rest (i + 1)
          (sect ++ renderJobLine cfg i job) s n he

theorem outerLoop_cons_events (cfg : Config) (src : Str) (js : List Job)
    (rest : List (Str × List Job)) (acc : Str) :
    (outerLoop cfg ((src, js) :: rest) acc).2 =
        blockOf cfg acc src js ++ [Event.truncMarker] ∨
    ∃ acc', (outerLoop cfg ((src, js) :: rest) acc).2 =
        blockOf cfg acc src js ++ (outerLoop cfg rest acc').2 := by
  simp only [outerLoop, blockOf]
  by_cases hmax : cfg.max_jobs_per_source < js.length
  · simp only [if_pos hmax]
    split
    · exact Or.inl rfl
    · exact Or.inr ⟨_, rfl⟩
  · simp only [if_neg hmax]
    split
    · exact Or.inl (by rw [List.append_nil])
    · exact Or.inr ⟨_, by rw [List.append_nil]⟩

theorem blockOf_src (cfg : Config) (acc : Str) (src : Str) (js : List Job)
    (e : Event) (he : e ∈ blockOf cfg acc src js) : e.src = some src := by
  unfold blockOf at he
  rcases List.mem_append.mp he with h | h
  · exact innerLoop_src cfg acc _ _ src _ 1 _ e h
  · split at h
    · rw [List.mem_singleton.mp h]
      rfl
    · cases h

theorem blockOf_order (cfg : Config) (acc : Str) (src : Str) (js : List Job)
    (s : Str) (k j : Nat)
    (hb : Event.budgetHit s k ∈ blockOf cfg acc src js)
    (hl : Event.lineAdded s j ∈ blockOf cfg acc src js) : j < k := by
  unfold blockOf at hb hl
  rcases List.mem_append.mp hb with hb | hb
  · rcases List.mem_append.mp hl with hl | hl
    · exact innerLoop_order cfg acc _ _ src _ 1 _ s k j hb hl
    · split at hl
      · cases List.mem_singleton.mp hl
      · cases hl
  · split at hb
    · cases List.mem_singleton.mp hb
    · cases hb

theorem blockOf_suffix (cfg : Config) (acc : Str) (src : Str) (js : List Job)
    (s : Str) (n : Nat)
    (hm : Event.innerSuffix s n ∈ blockOf cfg acc src js) :
    cfg.max_jobs_per_source < js.length := by
  unfold blockOf at hm
  rcases List.mem_append.mp hm with h | h
  · have hlt := innerLoop_suffix cfg acc _ _ src _ 1 _ s n h
    rw [List.length_take] at hlt
    rcases Nat.le_total cfg.max_jobs_per_source js.length with hle | hle
    · rcases Nat.lt_or_ge cfg.max_jobs_per_source js.length with hlt2 | hge
      · exact hlt2
      · rw [Nat.min_eq_right (Nat.le_antisymm hle hge ▸ Nat.le_refl _)] at hlt
        exact absurd hlt (Nat.lt_irrefl _)
    · rw [Nat.min_eq_right hle] at hlt
      exact absurd hlt (Nat.lt_irrefl _)
  · split at h
    · cases List.mem_singleton.mp h
    · cases h

theorem outerLoop_src (cfg : Config) : ∀ (gs : List (Str × List Job))
    (acc : Str) (e : Event), e ∈ (outerLoop cfg gs acc).2 →
    e = Event.truncMarker ∨ ∃ p ∈ gs, e.src = some p.1
  | [], acc, e => by simp [outerLoop]
  | (src, js) :: rest, acc, e => by
    intro he
    rcases outerLoop_cons_events cfg src js rest acc with h | ⟨acc', h⟩
    · rw [h] at he
      rcases List.mem_append.mp he with hb | ht
      · exact Or.inr ⟨(src, js), List.mem_cons_self _ _,
          blockOf_src cfg acc src js e hb⟩
      · exact Or.inl (List.mem_singleton.mp ht)
    · rw [h] at he
      rcases List.mem_append.mp he with hb | ht
      · exact Or.inr ⟨(src, js), List.mem_cons_self _ _,
          blockOf_src cfg acc src js e hb⟩
      · rcases outerLoop_src cfg rest acc' e ht with h' | ⟨p, hp, hps⟩
        · exact Or.inl h'
        · exact Or.inr ⟨p, List.mem_cons_of_mem _ hp, hps⟩

theorem outerLoop_order (cfg : Config) : ∀ (gs : List (Str × List Job))
    (acc : Str) (s : Str) (k j : Nat), (gs.map Prod.fst).Nodup →
    Event.budgetHit s k ∈ (outerLoop cfg gs acc).2 →
    Event.lineAdded s j ∈ (outerLoop cfg gs acc).2 → j < k
  | [], acc, s, k, j => by simp [outerLoop]
  | (src, js) :: rest, acc, s, k, j => by
    intro hnd hb hl
    rw [List.map_cons] at hnd
    have hnd' := List.nodup_cons.mp hnd
    rcases outerLoop_cons_events cfg src js rest acc with h | ⟨acc', h⟩
    · rw [h] at hb hl
      rcases List.mem_append.mp hb with hb | hb
      · rcases List.mem_append.mp hl with hl | hl
        · exact blockOf_order cfg acc src js s k j hb hl
        · cases List.mem_singleton.mp hl
      · cases List.mem_singleton.mp hb
    · rw [h] at hb hl
      rcases List.mem_append.mp hb with hb | hb
      · rcases List.mem_append.mp hl with hl | hl
        · exact blockOf_order cfg acc src js s k j hb hl
        · have hsrc : s = src := by
            have := blockOf_src cfg acc src js _ hb
            simpa [Event.src] using this
          rcases outerLoop_src cfg rest acc' _ hl with h' | ⟨p, hp, hps⟩
          · cases h'
          · have hpsrc : p.1 = s := by simpa [Event.src] using hps.symm
            exact absurd (List.mem_map.mpr ⟨p, hp, hpsrc.trans hsrc⟩) hnd'.1
      · rcases List.mem_append.mp hl with hl | hl
        · have hsrc : s = src := by
            have := blockOf_src cfg acc src js _ hl
            simpa [Event.src] using this
          rcases outerLoop_src cfg rest acc' _ hb with h' | ⟨p, hp, hps⟩
          · cases h'
          · have hpsrc : p.1 = s := by simpa [Event.src] using hps.symm
            exact absurd (List.mem_map.mpr ⟨p, hp, hpsrc.trans hsrc⟩) hnd'.1
        · exact outerLoop_order cfg rest acc' s k j hnd'.2 hb hl

theorem outerLoop_suffix_cond (cfg : Config) : ∀ (gs : List (Str × List Job))
    (acc : Str) (s : Str) (n : Nat),
    Event.innerSuffix s n ∈ (outerLoop cfg gs acc).2 →
    ∃ js, (s, js) ∈ gs ∧ cfg.max_jobs_per_source < js.length
  | [], acc, s, n => by simp [outerLoop]
  | (src, js) :: rest, acc, s, n => by
    intro hm
    rcases outerLoop_cons_events cfg src js rest acc with h | ⟨acc', h⟩ <;>
      rw [h] at hm <;> rcases List.mem_append.mp hm with hm | hm
    · have hsrc : s = src := by
        have := blockOf_src cfg acc src js _ hm
        simpa [Event.src] using this
      subst hsrc
      exact ⟨js, List.mem_cons_self _ _, blockOf_suffix cfg acc s js s n hm⟩
    · cases List.mem_singleton.mp hm
    · have hsrc : s = src := by
        have := blockOf_src cfg acc src js _ hm
        simpa [Event.src] using this
      subst hsrc
      exact ⟨js, List.mem_cons_self _ _, blockOf_suffix cfg acc s js s n hm⟩
    · obtain ⟨js', hmem, hlen⟩ := outerLoop_suffix_cond cfg rest acc' s n hm
      exact ⟨js', List.mem_cons_of_mem _ hmem, hlen⟩

theorem addToGroup_keys (gs : List (Str × List Job)) (j : Job) :
    (addToGroup gs j).map Prod.fst =
      if j.source ∈ gs.map Prod.fst then gs.map Prod.fst
      else gs.map Prod.fst ++ [j.source] := by
  induction gs with
  | nil => simp [addToGroup]
  | cons p rest ih =>
    obtain ⟨s, js⟩ := p
    simp only [addToGroup]
    by_cases hs : s = j.source
    · rw [if_pos hs]
      simp [hs]
    · rw [if_neg hs]
      simp only [List.map_cons, ih]
      by_cases hmem : j.source ∈ rest.map Prod.fst
      · rw [if_pos hmem, if_pos (by simp [hmem])]
      · rw [if_neg hmem, if_neg (by
          intro hc
          rcases List.mem_cons.mp hc with hc | hc
          · exact hs hc.symm
          · exact hmem hc)]
        simp

theorem foldl_addToGroup_nodup : ∀ (jobs : List Job)
    (gs : List (Str × List Job)), (gs.map Prod.fst).Nodup →
    ((jobs.foldl addToGroup gs).map Prod.fst).Nodup
  | [], gs, h => h
  | j :: rest, gs, h => by
    apply foldl_addToGroup_nodup rest
    rw [addToGroup_keys]
    by_cases hmem : j.source ∈ gs.map Prod.fst
    · rw [if_pos hmem]
      exact h
    · rw [if_neg hmem]
      simp [List.nodup_append, h, hmem]

theorem groupBySource_keys_nodup (jobs : List Job) :
    ((groupBySource jobs).map Prod.fst).Nodup :=
  foldl_addToGroup_nodup jobs [] (by simp)

theorem innerLoop_step_add (cfg : Config) (acc : Str) (sjLen dispLen : Nat)
    (src : Str) (job : Job) (rest : List Job) (i : Nat) (sect : Str)
    (h : ¬ max_message_length - 200 <
      (acc ++ sect ++ renderJobLine cfg i job).length) :
    innerLoop cfg acc sjLen dispLen src (job :: rest) i sect =
      ((innerLoop cfg acc sjLen dispLen src rest (i + 1)
          (sect ++ renderJobLine cfg i job)).1,
        Event.lineAdded src i ::
          (innerLoop cfg acc sjLen dispLen src rest (i + 1)
            (sect ++ renderJobLine cfg i job)).2) := by
  simp only [innerLoop, if_neg h]

theorem innerLoop_step_hit (cfg : Config) (acc : Str) (sjLen dispLen : Nat)
    (src : Str) (job : Job) (rest : List Job) (i : Nat) (sect : Str)
    (h : max_message_length - 200 <
      (acc ++ sect ++ renderJobLine cfg i job).length)
    (h2 : ¬ dispLen < sjLen) :
    innerLoop cfg acc sjLen dispLen src (job :: rest) i sect =
      (sect, [Event.budgetHit src i]) := by
  simp only [innerLoop, if_pos h, if_neg h2]

theorem outerLoop_step_continue (cfg : Config) (src : Str) (js : List Job)
    (rest : List (Str × List Job)) (acc : Str)
    (hmax : ¬ cfg.max_jobs_per_source < js.length)
    (hlen : ¬ max_message_length - 200 <
      (acc ++ (sectionResult cfg acc src js).1 ++ S "\n").length) :
    outerLoop cfg ((src, js) :: rest) acc =
      ((outerLoop cfg rest
          (acc ++ (sectionResult cfg acc src js).1 ++ S "\n")).1,
        (sectionResult cfg acc src js).2 ++
          (outerLoop cfg rest
            (acc ++ (sectionResult cfg acc src js).1 ++ S "\n")).2) := by
  simp only [sectionResult] at hlen ⊢
  simp only [outerLoop, if_neg hmax, if_neg hlen]

theorem jobs5_group :
    groupBySource jobs5 = [(S "A", [jA1, jA2]), (S "B", [jB5])] := rfl

theorem jobs5_lineA1 : renderJobLine cfg5 1 jA1 =
    natStr 1 ++ S ". [" ++ List.replicate 50 'x' ++ S "](" ++ S "l" ++
      S ")" ++ [] ++ [] ++ S "\n" := rfl

theorem jobs5_lineA2 : renderJobLine cfg5 2 jA2 =
    natStr 2 ++ S ". [" ++ List.replicate 3900 'y' ++ S "](" ++ S "l" ++
      S ")" ++ [] ++ [] ++ S "\n" := rfl

theorem jobs5_sectA :
    sectionResult cfg5 hdr5 (S "A") [jA1, jA2] =
      (hdrA5 ++ renderJobLine cfg5 1 jA1,
        [Event.lineAdded (S "A") 1, Event.budgetHit (S "A") 2]) := by
  have h0 : sectionResult cfg5 hdr5 (S "A") [jA1, jA2] =
      innerLoop cfg5 hdr5 2 2 (S "A") [jA1, jA2] 1 hdrA5 := rfl
  have hfit1 : ¬ max_message_length - 200 <
      (hdr5 ++ hdrA5 ++ renderJobLine cfg5 1 jA1).length := by
    rw [jobs5_lineA1]
    simp only [hdr5, hdrA5, List.length_append, List.length_replicate]
    decide
  have hhit2 : max_message_length - 200 <
      (hdr5 ++ (hdrA5 ++ renderJobLine cfg5 1 jA1) ++
        renderJobLine cfg5 2 jA2).length := by
    rw [jobs5_lineA1, jobs5_lineA2]
    simp only [hdr5, hdrA5, List.length_append, List.length_replicate]
    decide
  rw [h0, innerLoop_step_add cfg5 hdr5 2 2 (S "A") jA1 [jA2] 1 hdrA5 hfit1,
    innerLoop_step_hit cfg5 hdr5 2 2 (S "A") jA2 [] 2
      (hdrA5 ++ renderJobLine cfg5 1 jA1) hhit2 (by decide)]

theorem jobs5_accA :
    ¬ max_message_length - 200 <
      (hdr5 ++ (sectionResult cfg5 hdr5 (S "A") [jA1, jA2]).1 ++
        S "\n").length := by
  rw [jobs5_sectA]
  dsimp only
  rw [jobs5_lineA1]
  simp only [hdr5, hdrA5, List.length_append, List.length_replicate]
  decide

theorem jobs5_sectB :
    sectionResult cfg5
        (hdr5 ++ (sectionResult cfg5 hdr5 (S "A") [jA1, jA2]).1 ++ S "\n")
        (S "B") [jB5] =
      (hdrB5 ++ renderJobLine cfg5 1 jB5, [Event.lineAdded (S "B") 1]) := by
  have h0 : sectionResult cfg5
      (hdr5 ++ (sectionResult cfg5 hdr5 (S "A") [jA1, jA2]).1 ++ S "\n")
      (S "B") [jB5] =
      innerLoop cfg5
        (hdr5 ++ (sectionResult cfg5 hdr5 (S "A") [jA1, jA2]).1 ++ S "\n")
        1 1 (S "B") [jB5] 1 hdrB5 := rfl
  have hfit : ¬ max_message_length - 200 <
      ((hdr5 ++ (sectionResult cfg5 hdr5 (S "A") [jA1, jA2]).1 ++ S "\n") ++
        hdrB5 ++ renderJobLine cfg5 1 jB5).length := by
    rw [jobs5_sectA]
    dsimp only
    rw [jobs5_lineA1]
    simp only [hdr5, hdrA5, hdrB5, List.length_append, List.length_replicate]
    decide
  rw [h0, innerLoop_step_add cfg5 _ 1 1 (S "B") jB5 [] 1 hdrB5 hfit]
  rfl

theorem jobs5_trace :
    (create_digest_traced jobs5 stats5 cfg5 (S "d")).2 =
      [Event.lineAdded (S "A") 1, Event.budgetHit (S "A") 2,
        Event.lineAdded (S "B") 1] := by
  have h0 : create_digest_traced jobs5 stats5 cfg5 (S "d") =
      outerLoop cfg5 (groupBySource jobs5) hdr5 := rfl
  rw [h0, jobs5_group]
  rw [outerLoop_step_continue cfg5 (S "A") [jA1, jA2] [(S "B", [jB5])] hdr5
    (by decide) jobs5_accA]
  rw [outerLoop_step_continue cfg5 (S "B") [jB5] []
    (hdr5 ++ (sectionResult cfg5 hdr5 (S "A") [jA1, jA2]).1 ++ S "\n")
    (by decide) ?hB]
  case hB =>
    rw [jobs5_sectB]
    dsimp only
    rw [jobs5_sectA]
    dsimp only
    rw [jobs5_lineA1]
    simp only [hdr5, hdrA5, hdrB5, List.length_append, List.length_replicate]
    decide
  rw [jobs5_sectB, jobs5_sectA]
  rfl

/-- Claim C5 counterexample: source "A" holds only 2 ≤ max_jobs_per_source
postings and its second rendered line overflows the budget — the code then
appends no "...and N more" suffix (that suffix is guarded by the
more-than-displayed test), and the outer loop goes on: the later source
"B" still contributes its job line. -/
theorem c5_counterexample : ¬ C5Prop := fun h => by
  have h2 := h jobs5 stats5 cfg5 (S "d") (S "A") 2
    (by rw [jobs5_trace]; simp)
  have h3 := h2.2 (S "B") 1 (by rw [jobs5_trace]; simp)
  have hkeys : (groupBySource jobs5).map Prod.fst = [S "A", S "B"] := by
    rw [jobs5_group]
    rfl
  rw [hkeys] at h3
  exact absurd h3 (by decide)

/-- Claim C5 amended: when appending a rendered job line would exceed the
4096-200 budget, no further line is appended for that source (every line
of that source bears a strictly smaller index), and the inner "...and N
more" suffix is appended only when the source holds more postings than
max_jobs_per_source; later sources are not necessarily skipped (the outer
loop stops only when the accumulated digest itself exceeds the budget). -/
theorem c5_budget_stop (jobs : List Job) (stats : Stats) (cfg : Config)
    (nowDate : Str) (s : Str) (i : Nat)
    (hhit : Event.budgetHit s i ∈
      (create_digest_traced jobs stats cfg nowDate).2) :
    (∀ j, Event.lineAdded s j ∈
        (create_digest_traced jobs stats cfg nowDate).2 → j < i) ∧
    (∀ n, Event.innerSuffix s n ∈
        (create_digest_traced jobs stats cfg nowDate).2 →
      ∃ js, (s, js) ∈ groupBySource jobs ∧
        cfg.max_jobs_per_source < js.length) := by
  cases jobs with
  | nil => simp [create_digest_traced] at hhit
  | cons j0 rest =>
    simp only [create_digest_traced] at hhit ⊢
    constructor
    · intro k hl
      exact outerLoop_order cfg (groupBySource (j0 :: rest)) _ s i k
        (groupBySource_keys_nodup (j0 :: rest)) hhit hl
    · intro n hn
      exact outerLoop_suffix_cond cfg (groupBySource (j0 :: rest)) _ s n hn

theorem c5_budget_stop_witness :
    Event.budgetHit (S "A") 2 ∈
      (create_digest_traced jobs5 stats5 cfg5 (S "d")).2 ∧ (1 : Nat) < 2 :=
  ⟨by rw [jobs5_trace]; simp,
   (c5_budget_stop jobs5 stats5 cfg5 (S "d") (S "A") 2
      (by rw [jobs5_trace]; simp)).1 1 (by rw [jobs5_trace]; simp)⟩
